import Mathlib

/-!
Verification of the netlink protocol layer of the `wifi` package (a user-space
client for the Linux nl80211 generic-netlink family).

Bytes are modelled as natural numbers (each byte reduced modulo 256 where it is
produced), byte runs as `List Nat`, and Go machine integers as `Nat`, or as
`Int` with an explicit two's-complement wrap where a conversion from an
unsigned 64-bit value to a signed `int` matters.  Fallible Go functions return
`Except WErr`.
-/

namespace Wifi

/-- Error values distinguished by the package.  The Go code distinguishes
`errInvalidIE`, `os.ErrNotExist`, the `fmt.Errorf` wrappers around attribute
unmarshalling failures and around nested parse failures, and the `SetChannel`
validation error; the message strings are irrelevant to the claims, only the
identities of the conditions are modelled. -/
inductive WErr where
  | invalidIE
  | errNotExist
  | unmarshalErr
  | parseErr
  | validationErr (channel : Nat)
deriving DecidableEq, Repr

/-- Little-endian value of a byte run (each element reduced mod 256),
modelling the `nlenc` unsigned decoders. -/
def leVal : List Nat → Nat
  | [] => 0
  | b :: rest => b % 256 + 256 * leVal rest

/-- Little-endian encoding of `v` on `n` bytes, modelling the `nlenc` /
`netlink.AttributeEncoder` unsigned encoders (`Uint16`, `Uint32`, `Uint64`). -/
def putLE : Nat → Nat → List Nat
  | 0, _ => []
  | n + 1, v => v % 256 :: putLE n (v / 256)

/-- `nlenc.Uint16`: decode the first two bytes little-endian. -/
def getU16 (b : List Nat) : Nat := leVal (b.take 2)

/-- `nlenc.Uint32`: decode the first four bytes little-endian. -/
def getU32 (b : List Nat) : Nat := leVal (b.take 4)

/-- `nlenc.Uint64`: decode the first eight bytes little-endian. -/
def getU64 (b : List Nat) : Nat := leVal (b.take 8)

/-- Go's conversion of an unsigned 64-bit value to a signed 64-bit `int`
(two's complement wrap). -/
def toInt64 (v : Nat) : Int :=
  if v < 2 ^ 63 then (v : Int) else (v : Int) - 2 ^ 64

/-- Go's `int(int8(b))` on a byte. -/
def toInt8 (b : Nat) : Int :=
  if b % 256 < 128 then ((b % 256 : Nat) : Int) else ((b % 256 : Nat) : Int) - 256

theorem putLE_length (n v : Nat) : (putLE n v).length = n := by
  induction n generalizing v with
  | zero => rfl
  | succ n ih => simp [putLE, ih]

theorem mod_mul_decomp (a m : Nat) : a % (256 * m) = a % 256 + 256 * (a / 256 % m) := by
  conv_lhs => rw [← Nat.div_add_mod (a % (256 * m)) 256]
  rw [Nat.mod_mod_of_dvd _ ⟨m, rfl⟩, Nat.mod_mul_right_div_self]
  ring

theorem leVal_putLE (n v : Nat) : leVal (putLE n v) = v % 256 ^ n := by
  induction n generalizing v with
  | zero => simp [putLE, leVal]; omega
  | succ n ih =>
    have h : (256 : Nat) ^ (n + 1) = 256 * 256 ^ n := by ring
    rw [putLE, leVal, ih, h, mod_mul_decomp]
    omega

/-- A decoded netlink attribute (`netlink.Attribute`): a 16-bit type tag and a
raw payload. -/
structure NlAttr where
  typ : Nat
  data : List Nat
deriving DecidableEq, Repr

/-- Smallest multiple of 4 that is at least `n` (netlink record alignment). -/
def pad4 (n : Nat) : Nat := (n + 3) / 4 * 4

/-- Wire encoding of one attribute: a 16-bit little-endian length counting the
4-byte header plus the unpadded payload, a 16-bit little-endian type tag, the
payload, and zero padding to the next 4-byte boundary
(`netlink.AttributeEncoder`). -/
def marshalAttr (a : NlAttr) : List Nat :=
  putLE 2 (4 + a.data.length) ++ putLE 2 a.typ ++ a.data ++
    List.replicate (pad4 (4 + a.data.length) - (4 + a.data.length)) 0

/-- `netlink.AttributeEncoder.Encode`: concatenation of the attribute records
in order. -/
def marshalAttrs (attrs : List NlAttr) : List Nat :=
  (attrs.map marshalAttr).flatten

/-- `netlink.UnmarshalAttributes`: walk the byte run reading (length, type)
headers, slicing out each payload, and skipping the alignment padding; stop
cleanly at zero remaining bytes and fail on a short or undersized record. -/
def unmarshalAttributes (b : List Nat) : Except WErr (List NlAttr) :=
  if b = [] then .ok []
  else if b.length < 4 then .error .unmarshalErr
  else if getU16 b < 4 then .error .unmarshalErr
  else if b.length < getU16 b then .error .unmarshalErr
  else
    match unmarshalAttributes (b.drop (pad4 (getU16 b))) with
    | .error e => .error e
    | .ok rest => .ok (⟨getU16 (b.drop 2), (b.drop 4).take (getU16 b - 4)⟩ :: rest)
termination_by b.length
decreasing_by
  have hp : 4 ≤ pad4 (getU16 b) := by unfold pad4; omega
  simp only [List.length_drop]
  omega

theorem unmarshalAttributes_nil : unmarshalAttributes [] = .ok [] := by
  unfold unmarshalAttributes
  simp

/-- Well-formedness of an attribute for the wire format: the type tag fits in
16 bits and the record length (header plus payload) fits in 16 bits. -/
def NlAttr.wf (a : NlAttr) : Prop := a.typ < 65536 ∧ 4 + a.data.length < 65536

instance : DecidablePred NlAttr.wf := fun a => by
  unfold NlAttr.wf; infer_instance

theorem marshalAttr_length (a : NlAttr) :
    (marshalAttr a).length = pad4 (4 + a.data.length) := by
  simp only [marshalAttr, List.length_append, putLE_length, List.length_replicate]
  unfold pad4
  omega

theorem pad4_ge (n : Nat) : n ≤ pad4 n := by unfold pad4; omega

/-- Decoding one marshalled record from the front of a byte run recovers the
attribute and continues with the remainder. -/
theorem unmarshal_marshal_cons (a : NlAttr) (rest : List Nat) (ha : a.wf) :
    unmarshalAttributes (marshalAttr a ++ rest) =
      (unmarshalAttributes rest).map (a :: ·) := by
  obtain ⟨ht, hl⟩ := ha
  have hlen : (marshalAttr a).length = pad4 (4 + a.data.length) := marshalAttr_length a
  have hge : 4 + a.data.length ≤ pad4 (4 + a.data.length) := pad4_ge _
  have hcons : marshalAttr a ++ rest =
      (4 + a.data.length) % 256 :: (4 + a.data.length) / 256 % 256 ::
      a.typ % 256 :: a.typ / 256 % 256 ::
      (a.data ++ (List.replicate (pad4 (4 + a.data.length) - (4 + a.data.length)) 0 ++ rest)) := by
    simp [marshalAttr, putLE]
  have hlenall : (marshalAttr a ++ rest).length =
      pad4 (4 + a.data.length) + rest.length := by
    simp [hlen]
  have hgl : getU16 (marshalAttr a ++ rest) = 4 + a.data.length := by
    rw [hcons]
    simp only [getU16, List.take, leVal]
    omega
  have hgt : getU16 ((marshalAttr a ++ rest).drop 2) = a.typ := by
    rw [hcons]
    simp only [List.drop, getU16, List.take, leVal]
    omega
  have hdrop : (marshalAttr a ++ rest).drop (pad4 (4 + a.data.length)) = rest := by
    rw [← hlen, List.drop_left]
  have htake : ((marshalAttr a ++ rest).drop 4).take (4 + a.data.length - 4) = a.data := by
    rw [hcons]
    simp only [List.drop]
    rw [show 4 + a.data.length - 4 = a.data.length from by omega]
    exact List.take_left a.data _
  conv_lhs => rw [unmarshalAttributes]
  simp only [hgl, hgt, hdrop, htake]
  rw [if_neg (by rw [hcons]; exact List.cons_ne_nil _ _)]
  rw [if_neg (by omega), if_neg (by omega), if_neg (by omega)]
  cases unmarshalAttributes rest <;> simp [Except.map]

/-- Sub-record well-formedness used when a marshalled attribute list is nested
as the payload of an enclosing attribute: every attribute fits the wire
format, and the marshalled run itself fits an enclosing record's length
field. -/
def nestWf (attrs : List NlAttr) : Prop :=
  (∀ a ∈ attrs, a.wf) ∧ 4 + (marshalAttrs attrs).length < 65536

instance : DecidablePred nestWf := fun attrs => by
  unfold nestWf; infer_instance

/-- Round trip: unmarshalling the encoder's output recovers the attribute list
exactly, for attributes whose tag and record length fit in 16 bits. -/
theorem unmarshal_marshalAttrs (attrs : List NlAttr) (h : ∀ a ∈ attrs, a.wf) :
    unmarshalAttributes (marshalAttrs attrs) = .ok attrs := by
  induction attrs with
  | nil => simpa [marshalAttrs] using unmarshalAttributes_nil
  | cons a rest ih =>
    have hm : marshalAttrs (a :: rest) = marshalAttr a ++ marshalAttrs rest := by
      simp [marshalAttrs]
    rw [hm, unmarshal_marshal_cons a _ (h a (List.mem_cons_self a rest)),
      ih (fun x hx => h x (List.mem_cons_of_mem a hx))]
    rfl

/-- An 802.11 information element (`ie`): an 8-bit id and its payload; the
length field of the wire format is implied by the payload length. -/
structure IE where
  ID : Nat
  Data : List Nat
deriving DecidableEq, Repr

/-- `parseIEs`: repeatedly read a 1-byte id, a 1-byte length, then that many
payload bytes; stop cleanly at zero remaining bytes; fail with
`errInvalidIE` when fewer than 2 bytes remain for a header or fewer bytes
remain than the declared length. -/
def parseIEs : List Nat → Except WErr (List IE)
  | [] => .ok []
  | [_] => .error .invalidIE
  | i :: l :: rest =>
    if rest.length < l then .error .invalidIE
    else
      match parseIEs (rest.drop l) with
      | .error e => .error e
      | .ok ies => .ok (⟨i, rest.take l⟩ :: ies)
termination_by b => b.length
decreasing_by
  simp only [List.length_drop, List.length_cons]
  omega

/-- `utf8.DecodeRune`: the decoded code point and the number of bytes
consumed.  A valid 1-4 byte sequence yields its code point with its length;
any invalid or truncated sequence yields U+FFFD with size 1, as in Go. -/
def decodeRune : List Nat → Nat × Nat
  | [] => (0xFFFD, 0)
  | b0 :: rest =>
    if b0 < 0x80 then (b0, 1)
    else if 0xC2 ≤ b0 ∧ b0 ≤ 0xDF then
      match rest with
      | b1 :: _ =>
        if 0x80 ≤ b1 ∧ b1 ≤ 0xBF then ((b0 - 0xC0) * 64 + (b1 - 0x80), 2)
        else (0xFFFD, 1)
      | [] => (0xFFFD, 1)
    else if 0xE0 ≤ b0 ∧ b0 ≤ 0xEF then
      match rest with
      | b1 :: b2 :: _ =>
        if (if b0 = 0xE0 then 0xA0 ≤ b1 ∧ b1 ≤ 0xBF
            else if b0 = 0xED then 0x80 ≤ b1 ∧ b1 ≤ 0x9F
            else 0x80 ≤ b1 ∧ b1 ≤ 0xBF) ∧ 0x80 ≤ b2 ∧ b2 ≤ 0xBF then
          ((b0 - 0xE0) * 4096 + (b1 - 0x80) * 64 + (b2 - 0x80), 3)
        else (0xFFFD, 1)
      | _ => (0xFFFD, 1)
    else if 0xF0 ≤ b0 ∧ b0 ≤ 0xF4 then
      match rest with
      | b1 :: b2 :: b3 :: _ =>
        if (if b0 = 0xF0 then 0x90 ≤ b1 ∧ b1 ≤ 0xBF
            else if b0 = 0xF4 then 0x80 ≤ b1 ∧ b1 ≤ 0x8F
            else 0x80 ≤ b1 ∧ b1 ≤ 0xBF) ∧
            (0x80 ≤ b2 ∧ b2 ≤ 0xBF) ∧ (0x80 ≤ b3 ∧ b3 ≤ 0xBF) then
          ((b0 - 0xF0) * 262144 + (b1 - 0x80) * 4096 + (b2 - 0x80) * 64 + (b3 - 0x80), 4)
        else (0xFFFD, 1)
      | _ => (0xFFFD, 1)
    else (0xFFFD, 1)

theorem decodeRune_size_pos (b : List Nat) (h : b ≠ []) : 1 ≤ (decodeRune b).2 := by
  cases b with
  | nil => exact absurd rfl h
  | cons b0 rest =>
    unfold decodeRune
    repeat' split
    all_goals simp_all

/-- `decodeSSID`: decode the raw SSID bytes rune by rune, consuming the size
reported by the UTF-8 decoder each step, until no bytes remain. -/
def decodeSSID (b : List Nat) : List Nat :=
  if h : b = [] then []
  else (decodeRune b).1 :: decodeSSID (b.drop (decodeRune b).2)
termination_by b.length
decreasing_by
  have hs := decodeRune_size_pos b h
  have hb : 0 < b.length := List.length_pos.mpr h
  simp only [List.length_drop]
  omega

/-- A generic netlink message (`genetlink.Message`): header with protocol
version and command, and the encoded attribute payload. -/
structure GenlHeader where
  version : Nat
  command : Nat
deriving DecidableEq, Repr

structure GenlMsg where
  header : GenlHeader
  data : List Nat := []
deriving DecidableEq, Repr

/-- A raw netlink-level message as surfaced by the transport's receive path
(`netlink.Message`); only the header type and payload matter here.  The
netlink "error" message type is 2. -/
structure NlMsg where
  typ : Nat := 0
  data : List Nat := []
deriving DecidableEq, Repr

/-- `attrsContain`: whether the attribute list has an attribute with the given
type. -/
def attrsContain (attrs : List NlAttr) (typ : Nat) : Bool :=
  attrs.any (fun a => a.typ = typ)

/-- A BSS record (`BSS`).  `SSID` holds decoded code points; durations are in
nanoseconds, mirroring Go's `time.Duration`. -/
structure BSS where
  SSID : List Nat := []
  BSSID : List Nat := []
  Frequency : Nat := 0
  BeaconInterval : Nat := 0
  LastSeen : Nat := 0
  Status : Nat := 0
deriving DecidableEq, Repr

/-- One iteration of `(*BSS).parseAttributes`: the switch over the nl80211
BSS attribute tags (BSSID 1, FREQUENCY 2, BEACON_INTERVAL 4,
INFORMATION_ELEMENTS 6, STATUS 9, SEEN_MS_AGO 10).  Beacon interval is in
1024-microsecond time units; last-seen is in milliseconds.  The IE branch
scans every parsed element and records the SSID of each element with id 0. -/
def BSS.parseAttrStep (b : BSS) (a : NlAttr) : Except WErr BSS :=
  match a.typ with
  | 1 => .ok { b with BSSID := a.data }
  | 2 => .ok { b with Frequency := getU32 a.data }
  | 4 => .ok { b with BeaconInterval := getU16 a.data * 1024 * 1000 }
  | 10 => .ok { b with LastSeen := getU32 a.data * 1000000 }
  | 9 => .ok { b with Status := getU32 a.data }
  | 6 =>
    match parseIEs a.data with
    | .error e => .error e
    | .ok ies =>
      .ok (ies.foldl
        (fun bss el => if el.ID = 0 then { bss with SSID := decodeSSID el.Data } else bss) b)
  | _ => .ok b

/-- `(*BSS).parseAttributes`: fold the step over the attribute list, aborting
on the first error. -/
def BSS.parseAttributes (b : BSS) : List NlAttr → Except WErr BSS
  | [] => .ok b
  | a :: rest =>
    match b.parseAttrStep a with
    | .error e => .error e
    | .ok b2 => b2.parseAttributes rest

/-- Inner loop of `parseBSS` over one message's attributes: skip attributes
whose type is not `NL80211_ATTR_BSS` (47); unmarshal a BSS attribute's nested
attributes; skip the nested set when it lacks a `NL80211_BSS_STATUS` (9)
attribute; otherwise parse and return the BSS. -/
def parseBSSInMsg : List NlAttr → Except WErr (Option BSS)
  | [] => .ok none
  | a :: rest =>
    if a.typ ≠ 47 then parseBSSInMsg rest
    else
      match unmarshalAttributes a.data with
      | .error _ => .error .unmarshalErr
      | .ok nattrs =>
        if attrsContain nattrs 9 then
          match BSS.parseAttributes {} nattrs with
          | .error _ => .error .parseErr
          | .ok bss => .ok (some bss)
        else parseBSSInMsg rest

/-- `parseBSS`: scan the response messages for the BSS sub-record carrying a
status attribute; return `errNotExist` when no message yields one. -/
def parseBSS : List GenlMsg → Except WErr BSS
  | [] => .error .errNotExist
  | m :: rest =>
    match unmarshalAttributes m.data with
    | .error _ => .error .unmarshalErr
    | .ok attrs =>
      match parseBSSInMsg attrs with
      | .error e => .error e
      | .ok (some bss) => .ok bss
      | .ok none => parseBSS rest

/-- One iteration of the `parseRateInfo` loop: `NL80211_RATE_INFO_BITRATE32`
(5) always overwrites the accumulator; afterwards the 16-bit
`NL80211_RATE_INFO_BITRATE` (1) is written only when the accumulator is still
zero. -/
def rateStep (bitrate : Nat) (a : NlAttr) : Nat :=
  let b1 :=
    match a.typ with
    | 5 => getU32 a.data
    | _ => bitrate
  if b1 = 0 ∧ a.typ = 1 then getU16 a.data else b1

/-- `parseRateInfo`: unmarshal the nested rate attributes, fold the selection
rule from zero, then scale the result from 100 kbit/s units to bits/second. -/
def parseRateInfo (b : List Nat) : Except WErr Nat :=
  match unmarshalAttributes b with
  | .error _ => .error .unmarshalErr
  | .ok attrs => .ok (attrs.foldl rateStep 0 * 100000)

/-- Station statistics (`StationInfo`).  Byte counters are Go `int`s and may
receive a wrapped unsigned 64-bit value, so they are modelled as `Int`;
durations are in nanoseconds. -/
structure StationInfo where
  HardwareAddr : List Nat := []
  Connected : Nat := 0
  Inactive : Nat := 0
  ReceivedBytes : Int := 0
  TransmittedBytes : Int := 0
  ReceivedPackets : Nat := 0
  TransmittedPackets : Nat := 0
  ReceiveBitrate : Nat := 0
  TransmitBitrate : Nat := 0
  Signal : Int := 0
  TransmitRetries : Nat := 0
  TransmitFailed : Nat := 0
  BeaconLoss : Nat := 0
deriving DecidableEq, Repr

/-- One iteration of `(*StationInfo).parseAttributes`: first the switch over
the `NL80211_STA_INFO_*` tags (CONNECTED_TIME 16, INACTIVE_TIME 1,
RX_BYTES64 23, TX_BYTES64 24, SIGNAL 7, RX_PACKETS 9, TX_PACKETS 10,
TX_RETRIES 11, TX_FAILED 12, BEACON_LOSS 18, RX_BITRATE 14, TX_BITRATE 8),
then the 32-bit byte-counter fallbacks: `NL80211_STA_INFO_RX_BYTES` (2) and
`NL80211_STA_INFO_TX_BYTES` (3) are written only while the corresponding
accumulated counter is still the zero default. -/
def StationInfo.parseAttrStep (info : StationInfo) (a : NlAttr) : Except WErr StationInfo :=
  let base : Except WErr StationInfo :=
    match a.typ with
    | 16 => .ok { info with Connected := getU32 a.data * 1000000000 }
    | 1 => .ok { info with Inactive := getU32 a.data * 1000000 }
    | 23 => .ok { info with ReceivedBytes := toInt64 (getU64 a.data) }
    | 24 => .ok { info with TransmittedBytes := toInt64 (getU64 a.data) }
    | 7 => .ok { info with Signal := toInt8 (a.data.headD 0) }
    | 9 => .ok { info with ReceivedPackets := getU32 a.data }
    | 10 => .ok { info with TransmittedPackets := getU32 a.data }
    | 11 => .ok { info with TransmitRetries := getU32 a.data }
    | 12 => .ok { info with TransmitFailed := getU32 a.data }
    | 18 => .ok { info with BeaconLoss := getU32 a.data }
    | 14 =>
      match parseRateInfo a.data with
      | .error e => .error e
      | .ok bitrate => .ok { info with ReceiveBitrate := bitrate }
    | 8 =>
      match parseRateInfo a.data with
      | .error e => .error e
      | .ok bitrate => .ok { info with TransmitBitrate := bitrate }
    | _ => .ok info
  match base with
  | .error e => .error e
  | .ok i1 =>
    let i2 :=
      if i1.ReceivedBytes = 0 ∧ a.typ = 2 then
        { i1 with ReceivedBytes := (getU32 a.data : Int) }
      else i1
    let i3 :=
      if i2.TransmittedBytes = 0 ∧ a.typ = 3 then
        { i2 with TransmittedBytes := (getU32 a.data : Int) }
      else i2
    .ok i3

/-- `(*StationInfo).parseAttributes`: fold the step over the attribute list,
aborting on the first error. -/
def StationInfo.parseAttributes (info : StationInfo) : List NlAttr → Except WErr StationInfo
  | [] => .ok info
  | a :: rest =>
    match info.parseAttrStep a with
    | .error e => .error e
    | .ok info2 => info2.parseAttributes rest

/-- `parseStationInfo`: unmarshal the message payload, record a MAC attribute
(`NL80211_ATTR_MAC` 6) as it passes, and on the first
`NL80211_ATTR_STA_INFO` (21) attribute unmarshal the nested set, parse it
and return immediately; report `errNotExist` when no station info attribute
is present. -/
def parseStationInfoAttrs (info : StationInfo) : List NlAttr → Except WErr StationInfo
  | [] => .error .errNotExist
  | a :: rest =>
    match a.typ with
    | 6 => parseStationInfoAttrs { info with HardwareAddr := a.data } rest
    | 21 =>
      match unmarshalAttributes a.data with
      | .error _ => .error .unmarshalErr
      | .ok nattrs =>
        match info.parseAttributes nattrs with
        | .error _ => .error .parseErr
        | .ok info2 => .ok info2
    | _ => parseStationInfoAttrs info rest

def parseStationInfo (b : List Nat) : Except WErr StationInfo :=
  match unmarshalAttributes b with
  | .error _ => .error .unmarshalErr
  | .ok attrs => parseStationInfoAttrs {} attrs

/-- Big-endian encoding of `v` on `n` bytes. -/
def putBE : Nat → Nat → List Nat
  | 0, _ => []
  | n + 1, v => putBE n (v / 256) ++ [v % 256]

/-- Big-endian value of a byte run. -/
def beVal (b : List Nat) : Nat := b.foldl (fun acc x => acc * 256 + x % 256) 0

/-- Rotate a 32-bit word left by `n` bits. -/
def rotl32 (n x : Nat) : Nat := (x * 2 ^ n + x / 2 ^ (32 - n)) % 2 ^ 32

/-- SHA-1 round function for round `t`. -/
def sha1F (t b c d : Nat) : Nat :=
  if t < 20 then (b &&& c) ||| ((0xFFFFFFFF - b) &&& d)
  else if t < 40 then b ^^^ c ^^^ d
  else if t < 60 then (b &&& c) ||| (b &&& d) ||| (c &&& d)
  else b ^^^ c ^^^ d

/-- SHA-1 round constant for round `t`. -/
def sha1K (t : Nat) : Nat :=
  if t < 20 then 0x5A827999
  else if t < 40 then 0x6ED9EBA1
  else if t < 60 then 0x8F1BBCDC
  else 0xCA62C1D6

structure Sha1State where
  h0 : Nat
  h1 : Nat
  h2 : Nat
  h3 : Nat
  h4 : Nat
deriving DecidableEq, Repr

/-- Extend a SHA-1 message schedule by one word. -/
def sha1ExtendStep (w : List Nat) : List Nat :=
  w ++ [rotl32 1 (w.getD (w.length - 3) 0 ^^^ w.getD (w.length - 8) 0 ^^^
    w.getD (w.length - 14) 0 ^^^ w.getD (w.length - 16) 0)]

/-- The 80-word message schedule of one 64-byte chunk. -/
def sha1Schedule (chunk : List Nat) : List Nat :=
  let w0 := (List.range 16).map (fun i => beVal ((chunk.drop (4 * i)).take 4))
  (List.range 64).foldl (fun w _ => sha1ExtendStep w) w0

/-- SHA-1 compression of one 64-byte chunk into the running state. -/
def sha1Compress (st : Sha1State) (chunk : List Nat) : Sha1State :=
  let w := sha1Schedule chunk
  let fin := (List.range 80).foldl
    (fun (p : Nat × Nat × Nat × Nat × Nat) t =>
      let (a, b, c, d, e) := p
      let temp := (rotl32 5 a + sha1F t b c d + e + sha1K t + w.getD t 0) % 2 ^ 32
      (temp, a, rotl32 30 b, c, d))
    (st.h0, st.h1, st.h2, st.h3, st.h4)
  ⟨(st.h0 + fin.1) % 2 ^ 32, (st.h1 + fin.2.1) % 2 ^ 32, (st.h2 + fin.2.2.1) % 2 ^ 32,
    (st.h3 + fin.2.2.2.1) % 2 ^ 32, (st.h4 + fin.2.2.2.2) % 2 ^ 32⟩

/-- Split a byte run into 64-byte chunks. -/
def chunks64 (b : List Nat) : List (List Nat) :=
  if h : b = [] then []
  else b.take 64 :: chunks64 (b.drop 64)
termination_by b.length
decreasing_by
  have hb : 0 < b.length := List.length_pos.mpr h
  simp only [List.length_drop]
  omega

/-- SHA-1 padding: a 0x80 byte, zeros to 56 mod 64, then the bit length on
8 big-endian bytes. -/
def sha1Pad (msg : List Nat) : List Nat :=
  msg ++ [0x80] ++ List.replicate ((64 - (msg.length + 9) % 64) % 64) 0 ++
    putBE 8 (8 * msg.length)

/-- SHA-1 of a byte run (`crypto/sha1`), as a 20-byte digest. -/
def sha1 (msg : List Nat) : List Nat :=
  let st := (chunks64 (sha1Pad msg)).foldl sha1Compress
    ⟨0x67452301, 0xEFCDAB89, 0x98BADCFE, 0x10325476, 0xC3D2E1F0⟩
  putBE 4 st.h0 ++ putBE 4 st.h1 ++ putBE 4 st.h2 ++ putBE 4 st.h3 ++ putBE 4 st.h4

theorem putBE_length (n v : Nat) : (putBE n v).length = n := by
  induction n generalizing v with
  | zero => rfl
  | succ n ih => simp [putBE, ih]

theorem sha1_length (msg : List Nat) : (sha1 msg).length = 20 := by
  simp [sha1, putBE_length]

/-- Bytewise exclusive or (truncating to the shorter run, as in the Go
PBKDF2 accumulation where both runs share the PRF's output length). -/
def xorBytes (a b : List Nat) : List Nat := List.zipWith (· ^^^ ·) a b

/-- HMAC key normalization: hash keys longer than the 64-byte block, then pad
with zeros to the block size. -/
def hmacKeyBlock (key : List Nat) : List Nat :=
  let k := if 64 < key.length then sha1 key else key
  k ++ List.replicate (64 - k.length) 0

/-- HMAC-SHA1 (`crypto/hmac` with `sha1.New`). -/
def hmacSha1 (key msg : List Nat) : List Nat :=
  let k := hmacKeyBlock key
  sha1 (k.map (fun b => b ^^^ 0x5C) ++ sha1 (k.map (fun b => b ^^^ 0x36) ++ msg))

theorem hmacSha1_length (key msg : List Nat) : (hmacSha1 key msg).length = 20 :=
  sha1_length _

/-- The inner PBKDF2 iteration: starting from `U₁`, repeatedly apply the PRF
to the previous `U` and fold each result into the accumulator by exclusive
or.  The state is `(T, U)`. -/
def pbkdf2Iter (prf : List Nat → List Nat → List Nat) (password : List Nat) :
    Nat → List Nat × List Nat → List Nat × List Nat
  | 0, p => p
  | n + 1, p => pbkdf2Iter prf password n (xorBytes p.1 (prf password p.2), prf password p.2)

/-- One PBKDF2 output block `T_i` (RFC 2898, as implemented by
`golang.org/x/crypto/pbkdf2`): `U₁ = PRF(password, salt ‖ INT(i))`, then
`iter - 1` further PRF iterations folded together by exclusive or. -/
def pbkdf2F (prf : List Nat → List Nat → List Nat) (password salt : List Nat)
    (iter blockIdx : Nat) : List Nat :=
  let u1 := prf password (salt ++ putBE 4 blockIdx)
  (pbkdf2Iter prf password (iter - 1) (u1, u1)).1

/-- PBKDF2 (`pbkdf2.Key`): concatenate `⌈keyLen / hLen⌉` blocks and truncate
to `keyLen` bytes. -/
def pbkdf2 (prf : List Nat → List Nat → List Nat) (hLen : Nat)
    (password salt : List Nat) (iter keyLen : Nat) : List Nat :=
  let numBlocks := (keyLen + hLen - 1) / hLen
  (((List.range numBlocks).map (fun j => pbkdf2F prf password salt iter (j + 1))).flatten).take
    keyLen

/-- `wpaPassphrase`: the WPA2-PSK pairwise master key, PBKDF2 over the
passphrase with the SSID as salt, 4096 iterations and a 32-byte key, with
HMAC-SHA1 as the PRF. -/
def wpaPassphrase (ssid psk : List Nat) : List Nat :=
  pbkdf2 hmacSha1 20 psk ssid 4096 32

theorem pbkdf2Iter_length (password : List Nat) (n : Nat) (p : List Nat × List Nat)
    (h : p.1.length = 20) : (pbkdf2Iter hmacSha1 password n p).1.length = 20 := by
  induction n generalizing p with
  | zero => exact h
  | succ n ih =>
    apply ih
    simp [xorBytes, h, hmacSha1_length]

theorem pbkdf2F_length (password salt : List Nat) (iter blockIdx : Nat) :
    (pbkdf2F hmacSha1 password salt iter blockIdx).length = 20 :=
  pbkdf2Iter_length password _ _ (hmacSha1_length _ _)

/-- The derived PMK is always exactly 32 bytes. -/
theorem wpaPassphrase_length (ssid psk : List Nat) : (wpaPassphrase ssid psk).length = 32 := by
  have h2 : (32 + 20 - 1) / 20 = 2 := by norm_num
  simp [wpaPassphrase, pbkdf2, h2, List.range_succ, pbkdf2F_length]

/-- `netlink.AttributeEncoder.Uint32`: append a 4-byte little-endian record. -/
def aeUint32 (ae : List NlAttr) (typ v : Nat) : List NlAttr := ae ++ [⟨typ, putLE 4 v⟩]

/-- `netlink.AttributeEncoder.Uint16`. -/
def aeUint16 (ae : List NlAttr) (typ v : Nat) : List NlAttr := ae ++ [⟨typ, putLE 2 v⟩]

/-- `netlink.AttributeEncoder.Uint64`. -/
def aeUint64 (ae : List NlAttr) (typ v : Nat) : List NlAttr := ae ++ [⟨typ, putLE 8 v⟩]

/-- `netlink.AttributeEncoder.Uint8`. -/
def aeUint8 (ae : List NlAttr) (typ v : Nat) : List NlAttr := ae ++ [⟨typ, [v % 256]⟩]

/-- `netlink.AttributeEncoder.Bytes`. -/
def aeBytes (ae : List NlAttr) (typ : Nat) (d : List Nat) : List NlAttr := ae ++ [⟨typ, d⟩]

/-- `netlink.AttributeEncoder.String`: a NUL-terminated byte run. -/
def aeString (ae : List NlAttr) (typ : Nat) (s : List Nat) : List NlAttr :=
  ae ++ [⟨typ, s ++ [0]⟩]

/-- `netlink.AttributeEncoder.Flag`: record the attribute with an empty
payload when the flag is set, nothing otherwise. -/
def aeFlag (ae : List NlAttr) (typ : Nat) (v : Bool) : List NlAttr :=
  if v then ae ++ [⟨typ, []⟩] else ae

/-- Signed encoders: two's-complement little-endian on `n` bytes. -/
def aeIntN (n : Nat) (ae : List NlAttr) (typ : Nat) (v : Int) : List NlAttr :=
  ae ++ [⟨typ, putLE n (v % (2 ^ (8 * n) : Nat)).toNat⟩]

/-- `connectionAttrEncoder`: the attributes of an `NL80211_CMD_CONNECT`
command.  Always the SSID (`NL80211_ATTR_SSID` 52); when the pre-shared key
is non-empty also WPA version 2 (`NL80211_ATTR_WPA_VERSIONS` 75), the group
and pairwise cipher suites 0xfac04 (`NL80211_ATTR_CIPHER_SUITE_GROUP` 74,
`NL80211_ATTR_CIPHER_SUITES_PAIRWISE` 73), the AKM suite 0xfac02
(`NL80211_ATTR_AKM_SUITES` 76), the four-way-handshake flag
(`NL80211_ATTR_WANT_1X_4WAY_HS` 257) and the derived PMK
(`NL80211_ATTR_PMK` 254); always, last, the open-system auth type 0
(`NL80211_ATTR_AUTH_TYPE` 53). -/
def connectionAttrEncoder (ssid psk : List Nat) (ae : List NlAttr) : List NlAttr :=
  let ae1 := aeBytes ae 52 ssid
  let ae2 :=
    if psk ≠ [] then
      aeBytes
        (aeFlag
          (aeUint32 (aeUint32 (aeUint32 (aeUint32 ae1 75 2) 74 0xfac04) 73 0xfac04) 76 0xfac02)
          257 true)
        254 (wpaPassphrase ssid psk)
    else ae1
  aeUint32 ae2 53 0

/-- The value carried by an `Attribute[T]`: Go's type switch in
`EncodeAttribute` dispatches over exactly these value kinds. -/
inductive AttrVal where
  | u8 (v : Nat)
  | u16 (v : Nat)
  | u32 (v : Nat)
  | u64 (v : Nat)
  | str (s : List Nat)
  | bytes (b : List Nat)
  | flag (v : Bool)
  | i8 (v : Int)
  | i16 (v : Int)
  | i32 (v : Int)
  | i64 (v : Int)
deriving DecidableEq, Repr

/-- `Attribute[T]`: a 16-bit type tag and a value. -/
structure Attr where
  typ : Nat
  val : AttrVal
deriving DecidableEq, Repr

/-- `(*Attribute[T]).EncodeAttribute`: dispatch on the value's kind to the
corresponding `netlink.AttributeEncoder` method. -/
def Attr.encodeAttribute (a : Attr) (ae : List NlAttr) : List NlAttr :=
  match a.val with
  | .u8 v => aeUint8 ae a.typ v
  | .u16 v => aeUint16 ae a.typ v
  | .u32 v => aeUint32 ae a.typ v
  | .u64 v => aeUint64 ae a.typ v
  | .str s => aeString ae a.typ s
  | .bytes b => aeBytes ae a.typ b
  | .flag v => aeFlag ae a.typ v
  | .i8 v => aeIntN 1 ae a.typ v
  | .i16 v => aeIntN 2 ae a.typ v
  | .i32 v => aeIntN 4 ae a.typ v
  | .i64 v => aeIntN 8 ae a.typ v

/-- `InterfaceIndexAttribute`: an `NL80211_ATTR_IFINDEX` (3) 32-bit value. -/
def InterfaceIndexAttribute (v : Nat) : Attr := ⟨3, .u32 v⟩

/-- `WiphyFrequencyAttribute`: an `NL80211_ATTR_WIPHY_FREQ` (38) 32-bit
value. -/
def WiphyFrequencyAttribute (v : Nat) : Attr := ⟨38, .u32 v⟩

/-- `InterfaceTypeAttribute`: an `NL80211_ATTR_IFTYPE` (5) 32-bit value. -/
def InterfaceTypeAttribute (v : Nat) : Attr := ⟨5, .u32 v⟩

/-- Modelled from the spec: `NewNl80211Message` is exercised by the
repository's tests but its definition is not among the provided source
files.  Per spec §4.4 the builder encodes each attribute in the supplied
order with the attribute codec, concatenates the encoded buffer, and wraps
it with a header carrying the command code and protocol version 1 (the
version `newGenlMessage` writes); it fails only when the codec fails to
finalize the buffer, which the codec model never does. -/
def NewNl80211Message (cmd : Nat) (attrs : List Attr) : Except WErr GenlMsg :=
  .ok
    { header := { version := 1, command := cmd % 256 }
      data := marshalAttrs (attrs.foldl (fun ae a => a.encodeAttribute ae) []) }

/-- The fixed channel-to-frequency table (`WifiChannel`), 2.4 GHz channels
1-14 and 5 GHz channels 36-165; `none` for any channel absent from the
table. -/
def WifiChannel (ch : Nat) : Option Nat :=
  match ch with
  | 1 => some 2412
  | 2 => some 2417
  | 3 => some 2422
  | 4 => some 2427
  | 5 => some 2432
  | 6 => some 2437
  | 7 => some 2442
  | 8 => some 2447
  | 9 => some 2452
  | 10 => some 2457
  | 11 => some 2462
  | 12 => some 2467
  | 13 => some 2472
  | 14 => some 2484
  | 36 => some 5180
  | 38 => some 5190
  | 40 => some 5200
  | 42 => some 5210
  | 44 => some 5220
  | 46 => some 5230
  | 48 => some 5240
  | 50 => some 5250
  | 52 => some 5260
  | 54 => some 5270
  | 56 => some 5280
  | 58 => some 5290
  | 60 => some 5300
  | 62 => some 5310
  | 64 => some 5320
  | 100 => some 5500
  | 102 => some 5510
  | 104 => some 5520
  | 106 => some 5530
  | 108 => some 5540
  | 110 => some 5550
  | 112 => some 5560
  | 114 => some 5570
  | 116 => some 5580
  | 118 => some 5590
  | 120 => some 5600
  | 122 => some 5610
  | 124 => some 5620
  | 126 => some 5630
  | 128 => some 5640
  | 130 => some 5650
  | 132 => some 5660
  | 134 => some 5670
  | 136 => some 5680
  | 138 => some 5690
  | 140 => some 5700
  | 149 => some 5745
  | 151 => some 5755
  | 153 => some 5765
  | 155 => some 5775
  | 157 => some 5785
  | 159 => some 5795
  | 161 => some 5805
  | 165 => some 5825
  | _ => none

namespace Client

/-- `(*Client).SetChannel`: look the channel up in the fixed table before
building anything; on a miss, fail with the validation error and send
nothing; on a hit, build the `NL80211_CMD_SET_WIPHY` (2) message carrying
the interface index and the mapped frequency and send it.  The first
component is the list of messages handed to the transport's send path; the
second is the error result. -/
def SetChannel (ifindex channel : Nat) : List GenlMsg × Option WErr :=
  match WifiChannel channel with
  | none => ([], some (.validationErr channel))
  | some freq =>
    ([{ header := { version := 1, command := 2 }
        data := marshalAttrs (aeUint32 (aeUint32 [] 3 ifindex) 38 freq) }], none)

/-- `(*Client).get`: encode the interface index (when an interface is given)
followed by the optional extra parameters, send the command message, and
receive.  The transport's receive path hands back the parsed generic
netlink messages, the raw netlink-level messages, and an error; the raw
netlink-level replies are discarded unexamined (`msgs, _, err :=
c.c.Receive()`), and the parsed messages are returned unchanged whenever the
receive error is nil.  The first component is the message sent; the second
the returned result. -/
def get (familyVersion cmd : Nat) (wIndex : Option Nat)
    (params : Option (List NlAttr → List NlAttr)) (recvMsgs : List GenlMsg)
    (recvRaw : List NlMsg) (recvErr : Option WErr) :
    GenlMsg × Except WErr (List GenlMsg) :=
  let ae : List NlAttr :=
    match wIndex with
    | some i => aeUint32 [] 3 i
    | none => []
  let ae2 :=
    match params with
    | some f => f ae
    | none => ae
  let _raw := recvRaw
  (⟨⟨familyVersion, cmd % 256⟩, marshalAttrs ae2⟩,
    match recvErr with
    | some e => .error e
    | none => .ok recvMsgs)

end Client

/-- An interface record as decoded from a `GET_INTERFACE` response
(`InterfaceWlanConfig`); the device id may receive a wrapped unsigned 64-bit
value. -/
structure InterfaceWlanConfig where
  Index : Nat := 0
  Name : List Nat := []
  HardwareAddr : List Nat := []
  Phy : Nat := 0
  IfType : Nat := 0
  Device : Int := 0
  Frequency : Nat := 0
deriving DecidableEq, Repr

/-- `nlenc.String`: the bytes up to the first NUL. -/
def nlencString (b : List Nat) : List Nat := b.takeWhile (· ≠ 0)

/-- The attribute switch of `parseGetInterfaceResponse` (IFINDEX 3, IFNAME 4,
MAC 6, WIPHY 1, IFTYPE 5, WDEV 153, WIPHY_FREQ 38). -/
def parseIfaceAttr (cfg : InterfaceWlanConfig) (a : NlAttr) : InterfaceWlanConfig :=
  match a.typ with
  | 3 => { cfg with Index := getU32 a.data }
  | 4 => { cfg with Name := nlencString a.data }
  | 6 => { cfg with HardwareAddr := a.data }
  | 1 => { cfg with Phy := getU32 a.data }
  | 5 => { cfg with IfType := getU32 a.data }
  | 153 => { cfg with Device := toInt64 (getU64 a.data) }
  | 38 => { cfg with Frequency := getU32 a.data }
  | _ => cfg

/-- `parseGetInterfaceResponse`: decode every response message into an
interface record, in order, failing the whole parse on the first message
whose attributes do not unmarshal. -/
def parseGetInterfaceResponse : List GenlMsg → Except WErr (List InterfaceWlanConfig)
  | [] => .ok []
  | m :: rest =>
    match unmarshalAttributes m.data with
    | .error _ => .error .unmarshalErr
    | .ok attrs =>
      match parseGetInterfaceResponse rest with
      | .error e => .error e
      | .ok cfgs => .ok (attrs.foldl parseIfaceAttr {} :: cfgs)

/-- The subset of `WifiInterface` (an alias of `net.Interface`) that the
lookup operations inspect. -/
structure WifiIface where
  Index : Nat := 0
  Name : List Nat := []
  HardwareAddr : List Nat := []
deriving DecidableEq, Repr

namespace Client

/-- `(*Client).InterfaceByName`: given the outcome of `Interfaces()` (which
propagates transport and decode failures as errors), scan the dumped list
linearly and return the first interface with the requested name; when none
matches, return a nil interface with a nil error — the not-found outcome,
modelled as `.ok none`. -/
def InterfaceByName (interfacesResult : Except WErr (List WifiIface))
    (name : List Nat) : Except WErr (Option WifiIface) :=
  match interfacesResult with
  | .error e => .error e
  | .ok l => .ok (l.find? (fun i => i.Name == name))

/-- `(*Client).InterfaceWlanConfig`: issue the `GET_INTERFACE` request, parse
the response list, and return its first element by direct indexing with no
emptiness check (`wlan_configs[0]`).  The outer `none` marks the
out-of-range index — a Go runtime panic — which is reached exactly when the
exchange succeeds with zero messages. -/
def InterfaceWlanConfig (recvMsgs : List GenlMsg) (recvErr : Option WErr) :
    Option (Except WErr Wifi.InterfaceWlanConfig) :=
  match recvErr with
  | some e => some (.error e)
  | none =>
    match parseGetInterfaceResponse recvMsgs with
    | .error e => some (.error e)
    | .ok cfgs => (cfgs[0]?).map .ok

end Client

instance {ε α : Type} [DecidableEq ε] [DecidableEq α] : DecidableEq (Except ε α) := fun x y =>
  match x, y with
  | .ok a, .ok b => if h : a = b then .isTrue (by rw [h]) else .isFalse (by simp [h])
  | .error a, .error b => if h : a = b then .isTrue (by rw [h]) else .isFalse (by simp [h])
  | .ok _, .error _ => .isFalse (by simp)
  | .error _, .ok _ => .isFalse (by simp)

/-- A successful IE parse accounts for every input byte: the input is exactly
the concatenation of each element's id, length and payload. -/
theorem parseIEs_consumes_all (b : List Nat) :
    ∀ ies, parseIEs b = .ok ies →
      b = (ies.map (fun e => e.ID :: e.Data.length :: e.Data)).flatten := by
  induction b using parseIEs.induct with
  | case1 =>
    intro ies h
    simp only [parseIEs] at h
    cases h
    simp
  | case2 x =>
    intro ies h
    simp only [parseIEs] at h
    exact Except.noConfusion h
  | case3 i l rest hlt =>
    intro ies h
    simp only [parseIEs, if_pos hlt] at h
    exact Except.noConfusion h
  | case4 i l rest hlt e herr ih =>
    intro ies h
    simp only [parseIEs, if_neg hlt, herr] at h
    exact Except.noConfusion h
  | case5 i l rest hlt ies2 hok ih =>
    intro ies h
    simp only [parseIEs, if_neg hlt, hok] at h
    cases h
    have hlen : (rest.take l).length = l := by
      simp only [List.length_take]
      omega
    have := ih ies2 hok
    simp only [List.map_cons, List.flatten_cons, hlen, List.cons_append]
    rw [← this, List.take_append_drop]

/-- Claim C2: the information-element parser repeatedly reads a 1-byte id,
a 1-byte length and that many payload bytes, stops cleanly at zero remaining
bytes, and returns the elements in stream order — the fixture
[0,3,'f','o','o',5,4,'b','a','z','!'] decodes to exactly id 0 with "foo" and
id 5 with "baz!"; it fails with the malformed-element error whenever fewer
than 2 bytes remain for a header or fewer bytes remain than the declared
length; and a successful parse accounts for every input byte, so a short
element is never silently truncated. -/
theorem parseIEs_spec :
    parseIEs [0, 3, 102, 111, 111, 5, 4, 98, 97, 122, 33] =
      .ok [⟨0, [102, 111, 111]⟩, ⟨5, [98, 97, 122, 33]⟩] ∧
    parseIEs [] = .ok [] ∧
    (∀ x, parseIEs [x] = .error .invalidIE) ∧
    (∀ i l rest, rest.length < l → parseIEs (i :: l :: rest) = .error .invalidIE) ∧
    (∀ i l rest, l ≤ rest.length →
      parseIEs (i :: l :: rest) = (parseIEs (rest.drop l)).map (⟨i, rest.take l⟩ :: ·)) ∧
    (∀ b ies, parseIEs b = .ok ies →
      b = (ies.map (fun e => e.ID :: e.Data.length :: e.Data)).flatten) := by
  refine ⟨by simp [parseIEs], by simp [parseIEs], fun x => by simp [parseIEs],
    fun i l rest hlt => by simp [parseIEs, if_pos hlt],
    fun i l rest hle => ?_, parseIEs_consumes_all⟩
  simp only [parseIEs, if_neg (by omega : ¬ rest.length < l)]
  cases parseIEs (rest.drop l) <;> simp [Except.map]

/-- Witness for C2 at concrete inputs: a declared length exceeding the
remaining bytes is rejected, and the fixture parse covers its whole input. -/
theorem parseIEs_spec_witness :
    parseIEs [7, 5, 1, 2] = .error .invalidIE ∧
    [0, 3, 102, 111, 111, 5, 4, 98, 97, 122, 33] =
      (([⟨0, [102, 111, 111]⟩, ⟨5, [98, 97, 122, 33]⟩] : List IE).map
        (fun e => e.ID :: e.Data.length :: e.Data)).flatten :=
  ⟨parseIEs_spec.2.2.2.1 7 5 [1, 2] (by decide),
   parseIEs_spec.2.2.2.2.2 _ _ parseIEs_spec.1⟩

theorem getU32_putLE (v : Nat) : getU32 (putLE 4 v) = v % 2 ^ 32 := by
  have ht : (putLE 4 v).take 4 = putLE 4 v :=
    List.take_of_length_le (by simp [putLE_length])
  have : (256 : Nat) ^ 4 = 2 ^ 32 := by norm_num
  rw [getU32, ht, leVal_putLE, this]

theorem getU64_putLE (v : Nat) : getU64 (putLE 8 v) = v % 2 ^ 64 := by
  have ht : (putLE 8 v).take 8 = putLE 8 v :=
    List.take_of_length_le (by simp [putLE_length])
  have : (256 : Nat) ^ 8 = 2 ^ 64 := by norm_num
  rw [getU64, ht, leVal_putLE, this]

theorem getU16_putLE (v : Nat) : getU16 (putLE 2 v) = v % 2 ^ 16 := by
  have ht : (putLE 2 v).take 2 = putLE 2 v :=
    List.take_of_length_le (by simp [putLE_length])
  have : (256 : Nat) ^ 2 = 2 ^ 16 := by norm_num
  rw [getU16, ht, leVal_putLE, this]

/-- Claim C1 (amended): within one station-info decode pass, a 64-bit byte
counter tag always overwrites the accumulated receive/transmit counter, a
32-bit counter tag is written only when the accumulated value is still the
zero default at the moment it is seen, and a later-appearing 64-bit counter
always overrides an earlier 32-bit one; a stream containing only a 32-bit
receive-byte counter decodes to that counter's value, and a stream containing
both widths in either order decodes to the 64-bit counter's value provided
the 64-bit counter's value is nonzero (when it is zero and precedes a nonzero
32-bit counter, the 32-bit value is kept). -/
theorem sta_counter_fallback :
    (∀ (info : StationInfo) (d : List Nat),
      info.parseAttrStep ⟨23, d⟩ = .ok { info with ReceivedBytes := toInt64 (getU64 d) }) ∧
    (∀ (info : StationInfo) (d : List Nat),
      info.parseAttrStep ⟨24, d⟩ = .ok { info with TransmittedBytes := toInt64 (getU64 d) }) ∧
    (∀ (info : StationInfo) (d : List Nat), info.ReceivedBytes = 0 →
      info.parseAttrStep ⟨2, d⟩ = .ok { info with ReceivedBytes := (getU32 d : Int) }) ∧
    (∀ (info : StationInfo) (d : List Nat), info.ReceivedBytes ≠ 0 →
      info.parseAttrStep ⟨2, d⟩ = .ok info) ∧
    (∀ (info : StationInfo) (d : List Nat), info.TransmittedBytes = 0 →
      info.parseAttrStep ⟨3, d⟩ = .ok { info with TransmittedBytes := (getU32 d : Int) }) ∧
    (∀ (info : StationInfo) (d : List Nat), info.TransmittedBytes ≠ 0 →
      info.parseAttrStep ⟨3, d⟩ = .ok info) ∧
    (∀ v, v < 2 ^ 32 →
      (StationInfo.parseAttributes {} [⟨2, putLE 4 v⟩]).map (fun i => i.ReceivedBytes) =
        .ok (v : Int)) ∧
    (∀ v64 v32, v64 < 2 ^ 64 → v64 ≠ 0 →
      (StationInfo.parseAttributes {} [⟨23, putLE 8 v64⟩, ⟨2, putLE 4 v32⟩]).map
          (fun i => i.ReceivedBytes) = .ok (toInt64 v64) ∧
      (StationInfo.parseAttributes {} [⟨2, putLE 4 v32⟩, ⟨23, putLE 8 v64⟩]).map
          (fun i => i.ReceivedBytes) = .ok (toInt64 v64)) ∧
    (∀ v64 v32, v64 < 2 ^ 64 →
      (StationInfo.parseAttributes {} [⟨2, putLE 4 v32⟩, ⟨23, putLE 8 v64⟩]).map
          (fun i => i.ReceivedBytes) = .ok (toInt64 v64)) := by
  have h23 : ∀ (info : StationInfo) (d : List Nat),
      info.parseAttrStep ⟨23, d⟩ = .ok { info with ReceivedBytes := toInt64 (getU64 d) } := by
    intro info d
    simp [StationInfo.parseAttrStep]
  have h24 : ∀ (info : StationInfo) (d : List Nat),
      info.parseAttrStep ⟨24, d⟩ = .ok { info with TransmittedBytes := toInt64 (getU64 d) } := by
    intro info d
    simp [StationInfo.parseAttrStep]
  have h2z : ∀ (info : StationInfo) (d : List Nat), info.ReceivedBytes = 0 →
      info.parseAttrStep ⟨2, d⟩ = .ok { info with ReceivedBytes := (getU32 d : Int) } := by
    intro info d h
    simp [StationInfo.parseAttrStep, h]
  have h2n : ∀ (info : StationInfo) (d : List Nat), info.ReceivedBytes ≠ 0 →
      info.parseAttrStep ⟨2, d⟩ = .ok info := by
    intro info d h
    simp [StationInfo.parseAttrStep, h]
  have h3z : ∀ (info : StationInfo) (d : List Nat), info.TransmittedBytes = 0 →
      info.parseAttrStep ⟨3, d⟩ = .ok { info with TransmittedBytes := (getU32 d : Int) } := by
    intro info d h
    simp [StationInfo.parseAttrStep, h]
  have h3n : ∀ (info : StationInfo) (d : List Nat), info.TransmittedBytes ≠ 0 →
      info.parseAttrStep ⟨3, d⟩ = .ok info := by
    intro info d h
    simp [StationInfo.parseAttrStep, h]
  have hcons : ∀ {info i2 : StationInfo} {a : NlAttr} {rest : List NlAttr},
      info.parseAttrStep a = .ok i2 →
      info.parseAttributes (a :: rest) = i2.parseAttributes rest := by
    intro info i2 a rest h
    simp [StationInfo.parseAttributes, h]
  refine ⟨h23, h24, h2z, h2n, h3z, h3n, ?_, ?_, ?_⟩
  · intro v hv
    rw [hcons (h2z _ (putLE 4 v) rfl)]
    simp [StationInfo.parseAttributes, Except.map, getU32_putLE]
    omega
  · intro v64 v32 hv hnz
    have hne : toInt64 v64 ≠ 0 := by
      unfold toInt64
      split <;> omega
    have hstep1 : ({} : StationInfo).parseAttrStep ⟨23, putLE 8 v64⟩ =
        .ok { ReceivedBytes := toInt64 v64 } := by
      rw [h23]
      simp [getU64_putLE]
      congr 1
      omega
    constructor
    · rw [hcons hstep1, hcons (h2n _ (putLE 4 v32) hne)]
      simp [StationInfo.parseAttributes, Except.map]
    · rw [hcons (h2z _ (putLE 4 v32) rfl), hcons (h23 _ (putLE 8 v64))]
      simp [StationInfo.parseAttributes, Except.map, getU64_putLE]
      congr 1
      omega
  · intro v64 v32 hv
    rw [hcons (h2z _ (putLE 4 v32) rfl), hcons (h23 _ (putLE 8 v64))]
    simp [StationInfo.parseAttributes, Except.map, getU64_putLE]
    congr 1
    omega

/-- Witness for C1 (amended) at concrete inputs: value 7 through a lone 32-bit
counter; 64-bit value 9 prevailing over 32-bit value 7 in both orders; a
later 64-bit value always overriding. -/
theorem sta_counter_fallback_witness :
    (StationInfo.parseAttributes {} [⟨2, putLE 4 7⟩]).map
      (fun i => i.ReceivedBytes) = .ok (7 : Int) ∧
    (StationInfo.parseAttributes {} [⟨23, putLE 8 9⟩, ⟨2, putLE 4 7⟩]).map
      (fun i => i.ReceivedBytes) = .ok (toInt64 9) ∧
    (StationInfo.parseAttributes {} [⟨2, putLE 4 7⟩, ⟨23, putLE 8 9⟩]).map
      (fun i => i.ReceivedBytes) = .ok (toInt64 9) :=
  ⟨sta_counter_fallback.2.2.2.2.2.2.1 7 (by norm_num),
   (sta_counter_fallback.2.2.2.2.2.2.2.1 9 7 (by norm_num) (by norm_num)).1,
   sta_counter_fallback.2.2.2.2.2.2.2.2 9 7 (by norm_num)⟩

/-- Claim C1 counterexample: the stream [64-bit receive counter with value 0,
32-bit receive counter with value 5] contains both widths, so the claim as
stated requires the decoded value to equal the 64-bit counter's value 0; the
decoder instead keeps the 32-bit value 5, because the accumulated value is
still the zero default when the 32-bit tag is seen. -/
theorem sta_counter_fallback_counterexample :
    (StationInfo.parseAttributes {} [⟨23, putLE 8 0⟩, ⟨2, putLE 4 5⟩]).map
      (fun i => i.ReceivedBytes) = .ok (5 : Int) ∧ (5 : Int) ≠ toInt64 0 := by
  constructor
  · rfl
  · decide

/-- The rate-selection fold only ever holds the initial value, the 32-bit
value of a wide bitrate attribute, or the 16-bit value of a narrow bitrate
attribute from the stream. -/
theorem rateFold_cases (attrs : List NlAttr) (init : Nat) :
    attrs.foldl rateStep init = init ∨
    ∃ a ∈ attrs, (a.typ = 5 ∧ attrs.foldl rateStep init = getU32 a.data) ∨
      (a.typ = 1 ∧ attrs.foldl rateStep init = getU16 a.data) := by
  induction attrs generalizing init with
  | nil => exact Or.inl rfl
  | cons a rest ih =>
    have hstep : rateStep init a = init ∨
        (a.typ = 5 ∧ rateStep init a = getU32 a.data) ∨
        (a.typ = 1 ∧ rateStep init a = getU16 a.data) := by
      by_cases h5 : a.typ = 5
      · exact Or.inr (Or.inl ⟨h5, by simp [rateStep, h5]⟩)
      · by_cases h1 : a.typ = 1
        · by_cases hz : init = 0
          · exact Or.inr (Or.inr ⟨h1, by simp [rateStep, h1, h5, hz]⟩)
          · exact Or.inl (by simp [rateStep, h1, h5, hz])
        · exact Or.inl (by simp [rateStep, h1, h5])
    have hfold : (a :: rest).foldl rateStep init = rest.foldl rateStep (rateStep init a) := rfl
    rcases ih (rateStep init a) with hsame | ⟨a2, ha2, hcase⟩
    · rw [hfold, hsame]
      rcases hstep with h | h | h
      · exact Or.inl h
      · exact Or.inr ⟨a, List.mem_cons_self a rest, Or.inl h⟩
      · exact Or.inr ⟨a, List.mem_cons_self a rest, Or.inr h⟩
    · exact Or.inr ⟨a2, List.mem_cons_of_mem a ha2, by rw [hfold]; exact hcase⟩

/-- Claim C8: a decoded rate-info stream yields the selected raw value
multiplied by 100000 (normalizing 100 kbit/s units to bits/second) regardless
of which field width supplied it; the wide bitrate attribute always
overwrites the accumulator, while the narrow attribute's value is written
only while the accumulated value is still the zero default; a lone narrow
attribute decodes to its value, and a nonzero wide attribute prevails over a
narrow one in either order. -/
theorem rate_info_spec :
    (∀ b attrs, unmarshalAttributes b = .ok attrs →
      parseRateInfo b = .ok (attrs.foldl rateStep 0 * 100000) ∧
      (attrs.foldl rateStep 0 = 0 ∨
        ∃ a ∈ attrs, (a.typ = 5 ∧ attrs.foldl rateStep 0 = getU32 a.data) ∨
          (a.typ = 1 ∧ attrs.foldl rateStep 0 = getU16 a.data))) ∧
    (∀ br d, rateStep br ⟨5, d⟩ = getU32 d) ∧
    (∀ br d, br = 0 → rateStep br ⟨1, d⟩ = getU16 d) ∧
    (∀ br d, br ≠ 0 → rateStep br ⟨1, d⟩ = br) ∧
    (∀ v, v < 2 ^ 16 → parseRateInfo (marshalAttrs [⟨1, putLE 2 v⟩]) = .ok (v * 100000)) ∧
    (∀ v32 v16, v32 < 2 ^ 32 → v32 ≠ 0 →
      parseRateInfo (marshalAttrs [⟨5, putLE 4 v32⟩, ⟨1, putLE 2 v16⟩]) = .ok (v32 * 100000) ∧
      parseRateInfo (marshalAttrs [⟨1, putLE 2 v16⟩, ⟨5, putLE 4 v32⟩]) = .ok (v32 * 100000)) := by
  refine ⟨?_, ?_, ?_, ?_, ?_, ?_⟩
  · intro b attrs h
    exact ⟨by simp [parseRateInfo, h], rateFold_cases attrs 0⟩
  · intro br d
    simp [rateStep]
  · intro br d h
    simp [rateStep, h]
  · intro br d h
    simp [rateStep, h]
  · intro v hv
    have hrt : unmarshalAttributes (marshalAttrs [⟨1, putLE 2 v⟩]) = .ok [⟨1, putLE 2 v⟩] :=
      unmarshal_marshalAttrs _ (by simp [NlAttr.wf, putLE_length])
    simp [parseRateInfo, hrt, rateStep, getU16_putLE]
    omega
  · intro v32 v16 hv hnz
    constructor
    · have hrt : unmarshalAttributes (marshalAttrs [⟨5, putLE 4 v32⟩, ⟨1, putLE 2 v16⟩]) =
          .ok [⟨5, putLE 4 v32⟩, ⟨1, putLE 2 v16⟩] :=
        unmarshal_marshalAttrs _ (by simp [NlAttr.wf, putLE_length])
      have hm : v32 % 4294967296 = v32 := Nat.mod_eq_of_lt (by omega)
      simp [parseRateInfo, hrt, rateStep, getU32_putLE, hm, hnz]
    · have hrt : unmarshalAttributes (marshalAttrs [⟨1, putLE 2 v16⟩, ⟨5, putLE 4 v32⟩]) =
          .ok [⟨1, putLE 2 v16⟩, ⟨5, putLE 4 v32⟩] :=
        unmarshal_marshalAttrs _ (by simp [NlAttr.wf, putLE_length])
      have hm : v32 % 4294967296 = v32 := Nat.mod_eq_of_lt (by omega)
      simp [parseRateInfo, hrt, rateStep, getU32_putLE, hm]

/-- Witness for C8 at concrete inputs: a lone narrow bitrate of 540 decodes
to 54000000 bits/second; a wide bitrate of 3000 prevails over a narrow 540
in either order; and a decoded stream is always normalized from the fold. -/
theorem rate_info_spec_witness :
    parseRateInfo (marshalAttrs [⟨1, putLE 2 540⟩]) = .ok (540 * 100000) ∧
    parseRateInfo (marshalAttrs [⟨5, putLE 4 3000⟩, ⟨1, putLE 2 540⟩]) = .ok (3000 * 100000) ∧
    parseRateInfo (marshalAttrs [⟨1, putLE 2 540⟩, ⟨5, putLE 4 3000⟩]) = .ok (3000 * 100000) ∧
    parseRateInfo (marshalAttrs [⟨5, putLE 4 3⟩]) =
      .ok (([⟨5, putLE 4 3⟩] : List NlAttr).foldl rateStep 0 * 100000) :=
  ⟨rate_info_spec.2.2.2.2.1 540 (by norm_num),
   (rate_info_spec.2.2.2.2.2 3000 540 (by norm_num) (by norm_num)).1,
   (rate_info_spec.2.2.2.2.2 3000 540 (by norm_num) (by norm_num)).2,
   (rate_info_spec.1 _ _ (unmarshal_marshalAttrs [⟨5, putLE 4 3⟩]
     (by simp [NlAttr.wf, putLE_length]))).1⟩

/-- A response message carrying exactly one BSS attribute whose payload is
the marshalled nested attribute set `sub`; the header is irrelevant to
`parseBSS`. -/
def bssMessage (sub : List NlAttr) : GenlMsg :=
  ⟨⟨0, 0⟩, marshalAttrs [⟨47, marshalAttrs sub⟩]⟩

/-- Claim C3: BSS decoding scans the BSS-tagged attributes of the response
messages in order, decodes each one's nested attribute set, and returns
exactly the (first) BSS sub-record containing a status tag, regardless of its
position; when no sub-record carries a status tag it fails with the
not-found condition, which is distinct from every parse-failure condition. -/
theorem parseBSS_spec :
    (∀ subs : List (List NlAttr), (∀ s ∈ subs, nestWf s) →
      parseBSS (subs.map bssMessage) =
        match subs.find? (fun s => attrsContain s 9) with
        | some s =>
          match BSS.parseAttributes {} s with
          | .error _ => .error .parseErr
          | .ok bss => .ok bss
        | none => .error .errNotExist) ∧
    WErr.errNotExist ≠ WErr.parseErr ∧ WErr.errNotExist ≠ WErr.unmarshalErr ∧
    WErr.errNotExist ≠ WErr.invalidIE := by
  refine ⟨?_, by decide, by decide, by decide⟩
  intro subs hwf
  induction subs with
  | nil => rfl
  | cons s subs ih =>
    have hw := hwf s (List.mem_cons_self s subs)
    have hrt_outer : unmarshalAttributes (marshalAttrs [⟨47, marshalAttrs s⟩]) =
        .ok [⟨47, marshalAttrs s⟩] := by
      refine unmarshal_marshalAttrs _ ?_
      intro a ha
      simp only [List.mem_singleton] at ha
      subst ha
      exact ⟨by norm_num, by simpa using hw.2⟩
    have hrt_inner : unmarshalAttributes (marshalAttrs s) = .ok s :=
      unmarshal_marshalAttrs _ hw.1
    by_cases hst : attrsContain s 9
    · rw [show List.find? (fun s => attrsContain s 9) (s :: subs) = some s from
        List.find?_cons_of_pos _ hst]
      simp only [List.map_cons, parseBSS, bssMessage, hrt_outer, parseBSSInMsg, hrt_inner,
        if_pos hst, ne_eq, not_true_eq_false, if_false]
      cases BSS.parseAttributes {} s <;> rfl
    · rw [show List.find? (fun s => attrsContain s 9) (s :: subs) =
          List.find? (fun s => attrsContain s 9) subs from
        List.find?_cons_of_neg _ (by simpa using hst)]
      simp only [List.map_cons, parseBSS, bssMessage, hrt_outer, parseBSSInMsg, hrt_inner,
        if_neg hst, ne_eq, not_true_eq_false, if_false]
      exact ih (fun x hx => hwf x (List.mem_cons_of_mem s hx))

/-- Witness for C3 at concrete inputs: of three BSS sub-records where only
the second carries a status attribute, decoding returns exactly the second
(status 1, associated); with no status-carrying sub-record it reports
not-found. -/
theorem parseBSS_spec_witness :
    parseBSS ([[⟨1, [10, 20, 30, 40, 50, 60]⟩], [⟨9, putLE 4 1⟩],
        [⟨2, putLE 4 2412⟩]].map bssMessage) = .ok { Status := 1 } ∧
    parseBSS ([[⟨1, [10, 20, 30, 40, 50, 60]⟩], [⟨2, putLE 4 2412⟩]].map bssMessage) =
      .error .errNotExist := by
  constructor
  · rw [parseBSS_spec.1 [[⟨1, [10, 20, 30, 40, 50, 60]⟩], [⟨9, putLE 4 1⟩],
      [⟨2, putLE 4 2412⟩]] (by decide)]
    rfl
  · rw [parseBSS_spec.1 [[⟨1, [10, 20, 30, 40, 50, 60]⟩], [⟨2, putLE 4 2412⟩]] (by decide)]
    rfl

/-- Claim C4: connecting with an empty pre-shared key encodes only the SSID
attribute followed by the open-system auth-type attribute; with a non-empty
key it additionally encodes the WPA-version, cipher-suite-group,
pairwise-cipher-suite and AKM-suite attributes, the wants-4-way-handshake
flag, and the PMK — which is PBKDF2 over the passphrase with the SSID as
salt, 4096 iterations and 32-byte output — with the open-system auth-type
attribute appended in both cases. -/
theorem connect_attrs_spec :
    (∀ ssid : List Nat,
      connectionAttrEncoder ssid [] [] = [⟨52, ssid⟩, ⟨53, putLE 4 0⟩]) ∧
    (∀ ssid psk : List Nat, psk ≠ [] →
      connectionAttrEncoder ssid psk [] =
        [⟨52, ssid⟩, ⟨75, putLE 4 2⟩, ⟨74, putLE 4 0xfac04⟩, ⟨73, putLE 4 0xfac04⟩,
         ⟨76, putLE 4 0xfac02⟩, ⟨257, []⟩, ⟨254, wpaPassphrase ssid psk⟩,
         ⟨53, putLE 4 0⟩]) ∧
    (∀ ssid psk : List Nat,
      wpaPassphrase ssid psk = pbkdf2 hmacSha1 20 psk ssid 4096 32 ∧
      (wpaPassphrase ssid psk).length = 32) := by
  refine ⟨fun ssid => rfl, ?_, fun ssid psk => ⟨rfl, wpaPassphrase_length ssid psk⟩⟩
  intro ssid psk h
  simp [connectionAttrEncoder, aeBytes, aeUint32, aeFlag, h]

/-- Witness for C4 at a concrete SSID "a" and passphrase "b": the PSK path
emits the full attribute set with the derived 32-byte PMK. -/
theorem connect_attrs_spec_witness :
    connectionAttrEncoder [97] [98] [] =
      [⟨52, [97]⟩, ⟨75, putLE 4 2⟩, ⟨74, putLE 4 0xfac04⟩, ⟨73, putLE 4 0xfac04⟩,
       ⟨76, putLE 4 0xfac02⟩, ⟨257, []⟩, ⟨254, wpaPassphrase [97] [98]⟩,
       ⟨53, putLE 4 0⟩] ∧
    (wpaPassphrase [97] [98]).length = 32 :=
  ⟨connect_attrs_spec.2.1 [97] [98] (by decide), (connect_attrs_spec.2.2 [97] [98]).2⟩

/-- Claim C5: building a GET_INTERFACE (command 5) message with interface
index 3 under protocol version 1 yields header version 1, command 5 and
payload [8,0,3,0,3,0,0,0]; building SET_WIPHY (command 2) with interface
index 5 and frequency-channel value 11 yields payload
[8,0,3,0,5,0,0,0,8,0,38,0,11,0,0,0]; building with no attributes yields an
empty payload. -/
theorem command_message_bytes :
    NewNl80211Message 5 [InterfaceIndexAttribute 3] =
      .ok ⟨⟨1, 5⟩, [8, 0, 3, 0, 3, 0, 0, 0]⟩ ∧
    NewNl80211Message 2 [InterfaceIndexAttribute 5, WiphyFrequencyAttribute 11] =
      .ok ⟨⟨1, 2⟩, [8, 0, 3, 0, 5, 0, 0, 0, 8, 0, 38, 0, 11, 0, 0, 0]⟩ ∧
    NewNl80211Message 5 [] = .ok ⟨⟨1, 5⟩, []⟩ :=
  ⟨rfl, rfl, rfl⟩

/-- Claim C6: set-channel validates the requested channel against the fixed
channel-to-frequency table before building or sending anything: a channel
absent from the table (such as 37) fails with the validation error and no
message is handed to the transport, while channel 6 is accepted and encoded
as frequency 2437. -/
theorem set_channel_spec :
    (∀ idx ch, WifiChannel ch = none →
      Client.SetChannel idx ch = ([], some (.validationErr ch))) ∧
    WifiChannel 37 = none ∧
    WifiChannel 6 = some 2437 ∧
    (∀ idx, Client.SetChannel idx 6 =
      ([⟨⟨1, 2⟩, marshalAttrs [⟨3, putLE 4 idx⟩, ⟨38, putLE 4 2437⟩]⟩], none)) := by
  refine ⟨?_, rfl, rfl, fun idx => rfl⟩
  intro idx ch h
  simp [Client.SetChannel, h]

/-- Witness for C6 at concrete inputs: channel 37 on interface 9 is rejected
with nothing sent; channel 6 on interface 9 sends the frequency-2437
message. -/
theorem set_channel_spec_witness :
    Client.SetChannel 9 37 = ([], some (.validationErr 37)) ∧
    Client.SetChannel 9 6 =
      ([⟨⟨1, 2⟩, marshalAttrs [⟨3, putLE 4 9⟩, ⟨38, putLE 4 2437⟩]⟩], none) :=
  ⟨set_channel_spec.1 9 37 (by decide), set_channel_spec.2.2.2 9⟩

/-- Claim C7 (amended): after a request/response exchange receives its
replies, the returned message set is exactly the parsed messages the
transport handed back — the raw netlink-level replies are discarded
unexamined, and no acknowledgment-typed first reply is stripped at this
layer; a receive error reported by the transport (which is how a genuine
error reply surfaces) is propagated to the caller as a failure. -/
theorem get_replies_spec :
    (∀ fv cmd wIdx params msgs raw,
      (Client.get fv cmd wIdx params msgs raw none).2 = .ok msgs) ∧
    (∀ fv cmd wIdx params msgs raw e,
      (Client.get fv cmd wIdx params msgs raw (some e)).2 = .error e) :=
  ⟨fun _ _ _ _ _ _ => rfl, fun _ _ _ _ _ _ _ => rfl⟩

/-- Witness for C7 (amended) at concrete inputs. -/
theorem get_replies_spec_witness :
    (Client.get 1 5 none none [⟨⟨1, 5⟩, [1]⟩] [⟨2, []⟩] none).2 = .ok [⟨⟨1, 5⟩, [1]⟩] ∧
    (Client.get 1 5 none none [] [] (some .unmarshalErr)).2 = .error .unmarshalErr :=
  ⟨get_replies_spec.1 1 5 none none [⟨⟨1, 5⟩, [1]⟩] [⟨2, []⟩],
   get_replies_spec.2 1 5 none none [] [] .unmarshalErr⟩

/-- Claim C7 counterexample: a receive whose first raw netlink-level reply is
an error-typed (type 2) message with no payload — a pure acknowledgment —
and whose parsed set has two messages returns both messages; the claim as
stated requires the first reply to be dropped from the returned set. -/
theorem get_replies_counterexample :
    (Client.get 1 5 none none [⟨⟨1, 5⟩, [1]⟩, ⟨⟨1, 5⟩, [2]⟩] [⟨2, []⟩] none).2 =
      .ok [⟨⟨1, 5⟩, [1]⟩, ⟨⟨1, 5⟩, [2]⟩] ∧
    (.ok [⟨⟨1, 5⟩, [1]⟩, ⟨⟨1, 5⟩, [2]⟩] : Except WErr (List GenlMsg)) ≠
      .ok ([⟨⟨1, 5⟩, [1]⟩, ⟨⟨1, 5⟩, [2]⟩].drop 1) :=
  ⟨rfl, by decide⟩

/-- Claim C9: the by-name interface lookup is a linear scan over the dumped
interface list returning the first name match; when no interface has the
requested name it returns the not-found outcome (a nil interface with a nil
error, modelled as `.ok none`), and any failure of the underlying dump or
decode propagates as an error, so not-found is distinguishable from decode
and transport failures. -/
theorem interface_by_name_spec :
    (∀ (res : Except WErr (List WifiIface)) name l, res = .ok l →
      Client.InterfaceByName res name = .ok (l.find? (fun i => i.Name == name))) ∧
    (∀ (l : List WifiIface) name, (∀ i ∈ l, i.Name ≠ name) →
      Client.InterfaceByName (.ok l) name = .ok none) ∧
    (∀ e name, Client.InterfaceByName (.error e) name = .error e) ∧
    (∀ e, (.ok none : Except WErr (Option WifiIface)) ≠ .error e) := by
  refine ⟨?_, ?_, fun e name => rfl, fun e => by simp⟩
  · intro res name l h
    rw [h]
    rfl
  · intro l name h
    simp only [Client.InterfaceByName, List.find?_eq_none, Except.ok.injEq]
    intro i hi
    simpa using h i hi

/-- Witness for C9 at concrete inputs: looking up "eth0" in a dump holding
only "wlan0" yields the not-found outcome, and an error dump propagates. -/
theorem interface_by_name_spec_witness :
    Client.InterfaceByName (.ok [⟨1, [119, 108, 97, 110, 48], []⟩]) [101, 116, 104, 48] =
      .ok none ∧
    Client.InterfaceByName (.ok [⟨1, [119, 108, 97, 110, 48], []⟩]) [119, 108, 97, 110, 48] =
      .ok (([⟨1, [119, 108, 97, 110, 48], []⟩] : List WifiIface).find?
        (fun i => i.Name == [119, 108, 97, 110, 48])) :=
  ⟨interface_by_name_spec.2.1 [⟨1, [119, 108, 97, 110, 48], []⟩] [101, 116, 104, 48]
     (by decide),
   interface_by_name_spec.1 _ [119, 108, 97, 110, 48] [⟨1, [119, 108, 97, 110, 48], []⟩] rfl⟩

/-- Claim C10: the per-interface configuration query indexes the first parsed
response with no emptiness check; when the exchange yields zero messages and
no error, the parse succeeds with an empty list and the indexing is out of
range (the operation panics rather than returning a not-found or decode
failure), so the public operation is not total. -/
theorem iface_config_empty_index :
    parseGetInterfaceResponse [] = .ok [] ∧
    Client.InterfaceWlanConfig [] none = none ∧
    (∀ msgs, parseGetInterfaceResponse msgs = .ok [] →
      Client.InterfaceWlanConfig msgs none = none) ∧
    (∀ x : Except WErr InterfaceWlanConfig,
      (none : Option (Except WErr InterfaceWlanConfig)) ≠ some x) := by
  refine ⟨rfl, rfl, ?_, fun x => by simp⟩
  intro msgs h
  simp [Client.InterfaceWlanConfig, h]

/-- Witness for C10 at the concrete empty response. -/
theorem iface_config_empty_index_witness :
    Client.InterfaceWlanConfig [] none = none :=
  iface_config_empty_index.2.2.1 [] iface_config_empty_index.1

end Wifi
